import Mathlib

/-!
# Verification of the asynchronous job-status long-poll controller

Shallow embedding of `pollProcessingStatus` (src/Visualiser/script.js,
lines 425-569) and of the data it manipulates, together with proofs of the
spec's testable properties.

Modelling conventions:
* One invocation of the inner closure `poll` is `pollCycle`; the
  timer-driven recursion is `runPoll`, driven by a list of environment
  `Response`s (one per cycle, in order).
* The awaited call `this.makeRequest(...)` either resolves to an object
  `{ok, status, data}` (constructor `Response.result`) or rejects
  (constructor `Response.thrown`, landing in the `catch` of `poll`).
* Durations are naturals, in milliseconds.  The source computes
  `delay * 1.5` in JavaScript floats; here it is `delay * 3 / 2` in ℕ, which
  agrees with the float computation on every delay value reachable from the
  initial 5000 (they are all even, so the division is exact) — lemma
  `runPoll_delay_reachable` below proves that the reachable delays are
  exactly among 5000, 7500, 11250, 15000, on which the two agree.
* Observer callbacks are modelled as an `Event` trace: `updateProcessingStatus`
  is `Event.progressMsg`, the completed-branch rendering is `Event.success`,
  and the two `displayResult({ok:false, ...})` failure sites are
  `Event.failure` with the spec's failure kinds (`processingFailure` for the
  status-tag `error` branch, `timeout` for budget exhaustion).
* JavaScript truthiness is modelled where the source relies on it:
  `statusResult.data.error || 'Processing failed'` (empty string is falsy)
  and `progress.processed_statements ? ... : ...` (zero is falsy), and
  template interpolation of an absent field prints `undefined`.
-/

/-- The `progress` payload of a status response
(`statusResult.data.progress`); both counts are optional fields. -/
structure ProgressPayload where
  processed_statements : Option Nat
  total_statements : Option Nat
deriving DecidableEq

/-- The deserialized body of a status response (`statusResult.data`):
a status tag plus optional `error` and `progress` fields. -/
structure StatusReport where
  status : String
  error : Option String
  progress : Option ProgressPayload
deriving DecidableEq

/-- What one `await this.makeRequest(...)` in `poll` can produce: either the
promise rejects with an error message (handled by the `catch` in `poll`), or
it resolves to an object carrying `ok`, `status` and `data`. -/
inductive Response where
  | thrown (msg : String)
  | result (ok : Bool) (status : Nat) (data : StatusReport)
deriving DecidableEq

/-- The spec's failure taxonomy for `onFailure`: a `Processing` failure
(the job itself reported status tag `error`) or a `Timeout` failure
(attempt budget exhausted). -/
inductive FailureKind where
  | processingFailure
  | timeout
deriving DecidableEq

/-- One observer callback: a progress notification, the success rendering,
or a terminal failure report. -/
inductive Event where
  | progressMsg (msg : String)
  | success (report : StatusReport)
  | failure (kind : FailureKind) (detail : String)
deriving DecidableEq

/-- The per-invocation mutable locals of `pollProcessingStatus`:
`attempts` and `delay` (milliseconds). -/
structure PollState where
  attempts : Nat
  delay : Nat
deriving DecidableEq

/-- `const maxAttempts = 60;` (line 426). -/
def maxAttempts : Nat := 60

/-- `let delay = 5000;` (line 428), in milliseconds. -/
def initialDelay : Nat := 5000

/-- `setTimeout(poll, 2000);` (line 568): the pre-first-poll delay. -/
def initialPrePollDelay : Nat := 2000

/-- The rate-limit delay cap, `15000` ms (line 438). -/
def rateLimitDelayCap : Nat := 15000

/-- The state at the start of a `pollProcessingStatus` invocation:
`attempts = 0`, `delay = 5000`. -/
def initState : PollState := { attempts := 0, delay := initialDelay }

/-- `delay = Math.min(delay * 1.5, 15000);` (line 438).  In ℕ: exact
(equal to the float computation) whenever `d` is even, which holds on all
reachable delays (`runPoll_delay_reachable`). -/
def rateLimitStepDelay (d : Nat) : Nat := min (d * 3 / 2) rateLimitDelayCap

/-- `Math.round(delay / 1000)` of JavaScript on a nonnegative integer
number of milliseconds: round half up, i.e. `⌊(d + 500) / 1000⌋`. -/
def roundToSeconds (d : Nat) : Nat := (d + 500) / 1000

/-- Template interpolation of a possibly-absent numeric field: a number
prints as itself, an absent field prints as `undefined`. -/
def jsNumToString (n : Option Nat) : String :=
  match n with
  | some k => toString k
  | none => "undefined"

/-- `statusResult.data.error || 'Processing failed'` (line 530): JavaScript
`||` falls through to the default when the field is absent or empty. -/
def errDetail (e : Option String) : String :=
  match e with
  | some s => if s = "" then "Processing failed" else s
  | none => "Processing failed"

/-- The `progress || {}` default (line 442). -/
def emptyProgress : ProgressPayload := { processed_statements := none, total_statements := none }

/-- The still-processing progress text (lines 535-537):
`progress.processed_statements ? ... : 'Processing statements...'`, where the
condition is JavaScript truthiness (absent or zero count is falsy). -/
def progressText (p : ProgressPayload) : String :=
  match p.processed_statements with
  | some k =>
      if k = 0 then "Processing statements..."
      else "Processing: " ++ toString k ++ "/" ++ jsNumToString p.total_statements ++ " statements"
  | none => "Processing statements..."

/-- The timeout failure detail (line 550). -/
def timeoutDetail : String := "Processing timeout - please check status manually"

/-- What one cycle decides: reschedule `setTimeout(poll, wait)` with the
updated locals, or stop (a `return`, or falling off the end after a terminal
`displayResult`). -/
inductive Outcome where
  | reschedule (next : PollState) (wait : Nat)
  | done
deriving DecidableEq

/-- One execution of the closure `poll` (lines 430-565), from locals `s`,
when the awaited status request produces `r`: the emitted observer events, in
order, and whether/how the next cycle is scheduled.  Mirrors the source
branch for branch: `attempts++`; the `catch` for a rejected await; otherwise
`status === 429` first, then `ok` with the three status-tag cases
(`completed`, `error`, still processing), then the HTTP-error fallback; the
branches that do not `return` share the trailing
`attempts < maxAttempts ? setTimeout(poll, delay) : displayResult(timeout)`. -/
def pollCycle (s : PollState) (r : Response) : List Event × Outcome :=
  let a := s.attempts + 1
  match r with
  | Response.thrown msg =>
      if a < maxAttempts then
        ([Event.progressMsg "Connection error, retrying..."],
         Outcome.reschedule { attempts := a, delay := s.delay } s.delay)
      else
        ([Event.failure FailureKind.timeout ("Polling failed: " ++ msg)], Outcome.done)
  | Response.result ok status data =>
      if status = 429 then
        let d := rateLimitStepDelay s.delay
        let evs := [Event.progressMsg
          ("Rate limited, waiting " ++ toString (roundToSeconds d) ++ "s...")]
        if a < maxAttempts then (evs, Outcome.reschedule { attempts := a, delay := d } d)
        else (evs ++ [Event.failure FailureKind.timeout timeoutDetail], Outcome.done)
      else if ok then
        if data.status = "completed" then
          ([Event.success data], Outcome.done)
        else if data.status = "error" then
          ([Event.failure FailureKind.processingFailure (errDetail data.error)], Outcome.done)
        else
          let evs := [Event.progressMsg (progressText (data.progress.getD emptyProgress))]
          if a < maxAttempts then
            (evs, Outcome.reschedule { attempts := a, delay := s.delay } s.delay)
          else (evs ++ [Event.failure FailureKind.timeout timeoutDetail], Outcome.done)
      else
        let evs := [Event.progressMsg "Error checking status, retrying..."]
        if a < maxAttempts then
          (evs, Outcome.reschedule { attempts := a, delay := s.delay } s.delay)
        else (evs ++ [Event.failure FailureKind.timeout timeoutDetail], Outcome.done)

/-- The outcome of running the timer-driven recursion on a list of
environment responses: the concatenated event trace, how many cycles were
executed, and `some` final locals if the run stopped only because the
supplied response list ran out (i.e. a further cycle is still scheduled),
or `none` if a terminal branch stopped the recursion. -/
structure RunResult where
  events : List Event
  cycles : Nat
  final : Option PollState
deriving DecidableEq

/-- The timer-driven recursion of `poll`: consume one response per cycle
until a cycle stops (`Outcome.done`) or the environment list is exhausted. -/
def runPoll (s : PollState) : List Response → RunResult
  | [] => { events := [], cycles := 0, final := some s }
  | r :: rs =>
      match pollCycle s r with
      | (evs, Outcome.done) => { events := evs, cycles := 1, final := none }
      | (evs, Outcome.reschedule s2 _) =>
          let rest := runPoll s2 rs
          { events := evs ++ rest.events, cycles := rest.cycles + 1, final := rest.final }

/-- `pollProcessingStatus` (lines 425-569): fresh locals, then the poll loop. -/
def pollProcessingStatus (rs : List Response) : RunResult := runPoll initState rs

/-- Event classifier: is this the success callback? -/
def Event.isSuccess : Event → Bool
  | Event.success _ => true
  | _ => false

/-- Event classifier: is this a failure report? -/
def Event.isFailure : Event → Bool
  | Event.failure _ _ => true
  | _ => false

/-- Event classifier: is this a progress notification? -/
def Event.isProgress : Event → Bool
  | Event.progressMsg _ => true
  | _ => false

/-- A terminal event: success or failure. -/
def Event.isTerminal (e : Event) : Bool := e.isSuccess || e.isFailure

/-- Is this response a rate-limit signal (`statusResult.status === 429`)? -/
def Response.isRateLimited : Response → Bool
  | Response.result _ status _ => status = 429
  | _ => false

/-- The delay after `n` consecutive rate-limited cycles, starting from the
initial 5000 ms. -/
def delaySeq : Nat → Nat
  | 0 => initialDelay
  | n + 1 => rateLimitStepDelay (delaySeq n)


/-- The delay values reachable from the initial 5000 ms (on all of which
the ℕ embedding of `delay * 1.5` agrees with the float computation). -/
def reachableDelays : List Nat := [5000, 7500, 11250, 15000]

/-- Modelled from the spec as written, for comparison with the source's
`errDetail`: "`report.error` if present and `"Processing failed"`
otherwise" — i.e. without the JavaScript falsiness of an empty string. -/
def specErrDetail (e : Option String) : String := e.getD "Processing failed"

/-- Modelled from the spec as written, for comparison with the source's
`progressText`: "if the progress payload exposes a processed count and a
total count, the message is `Processing: <processed>/<total> statements`;
otherwise `Processing statements...`". -/
def specProgressText (p : ProgressPayload) : String :=
  match p.processed_statements, p.total_statements with
  | some a, some b => "Processing: " ++ toString a ++ "/" ++ toString b ++ " statements"
  | _, _ => "Processing statements..."

/-- One job being polled, for the two-independent-invocations model: the
locals of its `pollProcessingStatus` invocation (`none` once a terminal
branch has run) together with the environment responses still ahead of it.
Distinct invocations share nothing: `maxAttempts`, `attempts` and `delay`
are `const`/`let` locals of each call (lines 426-428). -/
structure Job where
  st : Option PollState
  pending : List Response
deriving DecidableEq

/-- One scheduler turn given to a job: if it is not terminal and a response
is available, run one `pollCycle`; otherwise nothing happens. -/
def stepJob (j : Job) : List Event × Job :=
  match j.st, j.pending with
  | some s, r :: rs =>
      match pollCycle s r with
      | (evs, Outcome.done) => (evs, { st := none, pending := rs })
      | (evs, Outcome.reschedule s2 _) => (evs, { st := some s2, pending := rs })
  | _, _ => ([], j)

/-- Running a single job for `n` scheduler turns: its emitted events. -/
def runSolo : Nat → Job → List Event
  | 0, _ => []
  | n + 1, j => (stepJob j).1 ++ runSolo n (stepJob j).2

/-- Running a single job for `n` scheduler turns: its ending `Job`. -/
def runSoloJob : Nat → Job → Job
  | 0, j => j
  | n + 1, j => runSoloJob n (stepJob j).2

/-- Two invocations interleaved by an arbitrary cooperative schedule
(`true` = the first job takes the next turn): the tagged event trace. -/
def runPair : List Bool → Job → Job → List (Bool × Event)
  | [], _, _ => []
  | b :: sched, j1, j2 =>
      if b then
        ((stepJob j1).1.map (fun e => (true, e))) ++ runPair sched (stepJob j1).2 j2
      else
        ((stepJob j2).1.map (fun e => (false, e))) ++ runPair sched j1 (stepJob j2).2

/-- Two invocations interleaved by an arbitrary schedule: the two ending
`Job`s. -/
def runPairJobs : List Bool → Job → Job → Job × Job
  | [], j1, j2 => (j1, j2)
  | b :: sched, j1, j2 =>
      if b then runPairJobs sched (stepJob j1).2 j2
      else runPairJobs sched j1 (stepJob j2).2

/-- The events of the interleaved trace belonging to the job tagged `b`. -/
def jobEvents (tagged : List (Bool × Event)) (b : Bool) : List Event :=
  tagged.filterMap (fun p => if p.1 = b then some p.2 else none)

theorem runPoll_nil (s : PollState) : runPoll s [] = ⟨[], 0, some s⟩ := rfl

theorem runPoll_cons_done {s : PollState} {r : Response} {evs : List Event}
    (rs : List Response) (h : pollCycle s r = (evs, Outcome.done)) :
    runPoll s (r :: rs) = ⟨evs, 1, none⟩ := by
  simp [runPoll, h]

theorem runPoll_cons_reschedule {s : PollState} {r : Response} {evs : List Event}
    {s2 : PollState} {w : Nat} (rs : List Response)
    (h : pollCycle s r = (evs, Outcome.reschedule s2 w)) :
    runPoll s (r :: rs)
      = ⟨evs ++ (runPoll s2 rs).events, (runPoll s2 rs).cycles + 1, (runPoll s2 rs).final⟩ := by
  simp [runPoll, h]

theorem pollCycle_thrown_of_lt (s : PollState) (m : String)
    (h : s.attempts + 1 < maxAttempts) :
    pollCycle s (Response.thrown m)
      = ([Event.progressMsg "Connection error, retrying..."],
         Outcome.reschedule { attempts := s.attempts + 1, delay := s.delay } s.delay) := by
  simp [pollCycle, h]

theorem pollCycle_thrown_of_ge (s : PollState) (m : String)
    (h : ¬ s.attempts + 1 < maxAttempts) :
    pollCycle s (Response.thrown m)
      = ([Event.failure FailureKind.timeout ("Polling failed: " ++ m)], Outcome.done) := by
  simp [pollCycle, h]

theorem pollCycle_rateLimited_of_lt (s : PollState) (ok : Bool) (data : StatusReport)
    (h : s.attempts + 1 < maxAttempts) :
    pollCycle s (Response.result ok 429 data)
      = ([Event.progressMsg
            ("Rate limited, waiting " ++ toString (roundToSeconds (rateLimitStepDelay s.delay)) ++ "s...")],
         Outcome.reschedule { attempts := s.attempts + 1, delay := rateLimitStepDelay s.delay }
           (rateLimitStepDelay s.delay)) := by
  simp [pollCycle, h]

theorem pollCycle_rateLimited_of_ge (s : PollState) (ok : Bool) (data : StatusReport)
    (h : ¬ s.attempts + 1 < maxAttempts) :
    pollCycle s (Response.result ok 429 data)
      = ([Event.progressMsg
            ("Rate limited, waiting " ++ toString (roundToSeconds (rateLimitStepDelay s.delay)) ++ "s..."),
          Event.failure FailureKind.timeout timeoutDetail], Outcome.done) := by
  simp [pollCycle, h]

theorem pollCycle_completed (s : PollState) (stc : Nat) (data : StatusReport)
    (h429 : stc ≠ 429) (hc : data.status = "completed") :
    pollCycle s (Response.result true stc data) = ([Event.success data], Outcome.done) := by
  simp [pollCycle, h429, hc]

theorem pollCycle_errorTag (s : PollState) (stc : Nat) (data : StatusReport)
    (h429 : stc ≠ 429) (hc : data.status ≠ "completed") (he : data.status = "error") :
    pollCycle s (Response.result true stc data)
      = ([Event.failure FailureKind.processingFailure (errDetail data.error)], Outcome.done) := by
  simp [pollCycle, h429, hc, he]

theorem pollCycle_stillProcessing_of_lt (s : PollState) (stc : Nat) (data : StatusReport)
    (h429 : stc ≠ 429) (hc : data.status ≠ "completed") (he : data.status ≠ "error")
    (h : s.attempts + 1 < maxAttempts) :
    pollCycle s (Response.result true stc data)
      = ([Event.progressMsg (progressText (data.progress.getD emptyProgress))],
         Outcome.reschedule { attempts := s.attempts + 1, delay := s.delay } s.delay) := by
  simp [pollCycle, h429, hc, he, h]

theorem pollCycle_stillProcessing_of_ge (s : PollState) (stc : Nat) (data : StatusReport)
    (h429 : stc ≠ 429) (hc : data.status ≠ "completed") (he : data.status ≠ "error")
    (h : ¬ s.attempts + 1 < maxAttempts) :
    pollCycle s (Response.result true stc data)
      = ([Event.progressMsg (progressText (data.progress.getD emptyProgress)),
          Event.failure FailureKind.timeout timeoutDetail], Outcome.done) := by
  simp [pollCycle, h429, hc, he, h]

theorem pollCycle_httpError_of_lt (s : PollState) (stc : Nat) (data : StatusReport)
    (h429 : stc ≠ 429) (h : s.attempts + 1 < maxAttempts) :
    pollCycle s (Response.result false stc data)
      = ([Event.progressMsg "Error checking status, retrying..."],
         Outcome.reschedule { attempts := s.attempts + 1, delay := s.delay } s.delay) := by
  simp [pollCycle, h429, h]

theorem pollCycle_httpError_of_ge (s : PollState) (stc : Nat) (data : StatusReport)
    (h429 : stc ≠ 429) (h : ¬ s.attempts + 1 < maxAttempts) :
    pollCycle s (Response.result false stc data)
      = ([Event.progressMsg "Error checking status, retrying...",
          Event.failure FailureKind.timeout timeoutDetail], Outcome.done) := by
  simp [pollCycle, h429, h]

theorem pollCycle_reschedule_inv {s : PollState} {r : Response} {evs : List Event}
    {s2 : PollState} {w : Nat} (h : pollCycle s r = (evs, Outcome.reschedule s2 w)) :
    (s2.delay = s.delay ∨ s2.delay = rateLimitStepDelay s.delay)
      ∧ w = s2.delay ∧ s2.attempts = s.attempts + 1 ∧ s.attempts + 1 < maxAttempts := by
  by_cases hb : s.attempts + 1 < maxAttempts
  · cases r with
    | thrown m =>
        rw [pollCycle_thrown_of_lt s m hb] at h
        obtain ⟨-, h2⟩ := Prod.mk.injEq .. ▸ h
        obtain ⟨h3, h4⟩ := Outcome.reschedule.injEq .. ▸ h2.symm
        subst h3; subst h4; exact ⟨Or.inl rfl, rfl, rfl, hb⟩
    | result ok stc data =>
        by_cases h429 : stc = 429
        · subst h429
          rw [pollCycle_rateLimited_of_lt s ok data hb] at h
          obtain ⟨-, h2⟩ := Prod.mk.injEq .. ▸ h
          obtain ⟨h3, h4⟩ := Outcome.reschedule.injEq .. ▸ h2.symm
          subst h3; subst h4; exact ⟨Or.inr rfl, rfl, rfl, hb⟩
        · cases ok with
          | false =>
              rw [pollCycle_httpError_of_lt s stc data h429 hb] at h
              obtain ⟨-, h2⟩ := Prod.mk.injEq .. ▸ h
              obtain ⟨h3, h4⟩ := Outcome.reschedule.injEq .. ▸ h2.symm
              subst h3; subst h4; exact ⟨Or.inl rfl, rfl, rfl, hb⟩
          | true =>
              by_cases hc : data.status = "completed"
              · rw [pollCycle_completed s stc data h429 hc] at h
                simp at h
              · by_cases he : data.status = "error"
                · rw [pollCycle_errorTag s stc data h429 hc he] at h
                  simp at h
                · rw [pollCycle_stillProcessing_of_lt s stc data h429 hc he hb] at h
                  obtain ⟨-, h2⟩ := Prod.mk.injEq .. ▸ h
                  obtain ⟨h3, h4⟩ := Outcome.reschedule.injEq .. ▸ h2.symm
                  subst h3; subst h4; exact ⟨Or.inl rfl, rfl, rfl, hb⟩
  · exfalso
    cases r with
    | thrown m => rw [pollCycle_thrown_of_ge s m hb] at h; simp at h
    | result ok stc data =>
        by_cases h429 : stc = 429
        · subst h429; rw [pollCycle_rateLimited_of_ge s ok data hb] at h; simp at h
        · cases ok with
          | false => rw [pollCycle_httpError_of_ge s stc data h429 hb] at h; simp at h
          | true =>
              by_cases hc : data.status = "completed"
              · rw [pollCycle_completed s stc data h429 hc] at h; simp at h
              · by_cases he : data.status = "error"
                · rw [pollCycle_errorTag s stc data h429 hc he] at h; simp at h
                · rw [pollCycle_stillProcessing_of_ge s stc data h429 hc he hb] at h; simp at h

theorem pollCycle_reschedule_events {s : PollState} {r : Response} {evs : List Event}
    {s2 : PollState} {w : Nat} (h : pollCycle s r = (evs, Outcome.reschedule s2 w)) :
    ∀ e ∈ evs, e.isProgress = true := by
  have hb := (pollCycle_reschedule_inv h).2.2.2
  cases r with
  | thrown m =>
      rw [pollCycle_thrown_of_lt s m hb] at h
      obtain ⟨h1, -⟩ := Prod.mk.injEq .. ▸ h
      subst h1; intro e he; simp at he; subst he; rfl
  | result ok stc data =>
      by_cases h429 : stc = 429
      · subst h429
        rw [pollCycle_rateLimited_of_lt s ok data hb] at h
        obtain ⟨h1, -⟩ := Prod.mk.injEq .. ▸ h
        subst h1; intro e he; simp at he; subst he; rfl
      · cases ok with
        | false =>
            rw [pollCycle_httpError_of_lt s stc data h429 hb] at h
            obtain ⟨h1, -⟩ := Prod.mk.injEq .. ▸ h
            subst h1; intro e he; simp at he; subst he; rfl
        | true =>
            by_cases hc : data.status = "completed"
            · rw [pollCycle_completed s stc data h429 hc] at h; simp at h
            · by_cases he : data.status = "error"
              · rw [pollCycle_errorTag s stc data h429 hc he] at h; simp at h
              · rw [pollCycle_stillProcessing_of_lt s stc data h429 hc he hb] at h
                obtain ⟨h1, -⟩ := Prod.mk.injEq .. ▸ h
                subst h1; intro e he2; simp at he2; subst he2; rfl

theorem pollCycle_done_shape {s : PollState} {r : Response} {evs : List Event}
    (h : pollCycle s r = (evs, Outcome.done)) :
    ∃ pre t, evs = pre ++ [t] ∧ (∀ e ∈ pre, e.isProgress = true) ∧ t.isTerminal = true := by
  cases r with
  | thrown m =>
      by_cases hb : s.attempts + 1 < maxAttempts
      · rw [pollCycle_thrown_of_lt s m hb] at h; simp at h
      · rw [pollCycle_thrown_of_ge s m hb] at h
        obtain ⟨h1, -⟩ := Prod.mk.injEq .. ▸ h
        subst h1
        exact ⟨[], _, rfl, by intro e he; simp at he, rfl⟩
  | result ok stc data =>
      by_cases h429 : stc = 429
      · subst h429
        by_cases hb : s.attempts + 1 < maxAttempts
        · rw [pollCycle_rateLimited_of_lt s ok data hb] at h; simp at h
        · rw [pollCycle_rateLimited_of_ge s ok data hb] at h
          obtain ⟨h1, -⟩ := Prod.mk.injEq .. ▸ h
          subst h1
          refine ⟨[Event.progressMsg _], _, rfl, ?_, rfl⟩
          intro e he; simp at he; subst he; rfl
      · cases ok with
        | false =>
            by_cases hb : s.attempts + 1 < maxAttempts
            · rw [pollCycle_httpError_of_lt s stc data h429 hb] at h; simp at h
            · rw [pollCycle_httpError_of_ge s stc data h429 hb] at h
              obtain ⟨h1, -⟩ := Prod.mk.injEq .. ▸ h
              subst h1
              refine ⟨[Event.progressMsg _], _, rfl, ?_, rfl⟩
              intro e he; simp at he; subst he; rfl
        | true =>
            by_cases hc : data.status = "completed"
            · rw [pollCycle_completed s stc data h429 hc] at h
              obtain ⟨h1, -⟩ := Prod.mk.injEq .. ▸ h
              subst h1
              exact ⟨[], _, rfl, by intro e he; simp at he, rfl⟩
            · by_cases he : data.status = "error"
              · rw [pollCycle_errorTag s stc data h429 hc he] at h
                obtain ⟨h1, -⟩ := Prod.mk.injEq .. ▸ h
                subst h1
                exact ⟨[], _, rfl, by intro e he2; simp at he2, rfl⟩
              · by_cases hb : s.attempts + 1 < maxAttempts
                · rw [pollCycle_stillProcessing_of_lt s stc data h429 hc he hb] at h; simp at h
                · rw [pollCycle_stillProcessing_of_ge s stc data h429 hc he hb] at h
                  obtain ⟨h1, -⟩ := Prod.mk.injEq .. ▸ h
                  subst h1
                  refine ⟨[Event.progressMsg _], _, rfl, ?_, rfl⟩
                  intro e he2; simp at he2; subst he2; rfl

theorem runPoll_append_of_final_none (s : PollState) (l1 l2 : List Response)
    (h : (runPoll s l1).final = none) : runPoll s (l1 ++ l2) = runPoll s l1 := by
  induction l1 generalizing s with
  | nil => simp [runPoll_nil] at h
  | cons r rs ih =>
      cases hc : pollCycle s r with
      | mk evs o =>
        cases o with
        | done =>
            rw [List.cons_append, runPoll_cons_done (rs ++ l2) hc, runPoll_cons_done rs hc]
        | reschedule s2 w =>
            rw [runPoll_cons_reschedule rs hc] at h
            rw [List.cons_append, runPoll_cons_reschedule (rs ++ l2) hc,
                runPoll_cons_reschedule rs hc, ih s2 h]

theorem runPoll_append_of_final_some (s s' : PollState) (l1 l2 : List Response)
    (h : (runPoll s l1).final = some s') :
    runPoll s (l1 ++ l2)
      = ⟨(runPoll s l1).events ++ (runPoll s' l2).events,
         (runPoll s l1).cycles + (runPoll s' l2).cycles,
         (runPoll s' l2).final⟩ := by
  induction l1 generalizing s with
  | nil =>
      rw [runPoll_nil] at h
      simp only [Option.some.injEq] at h
      subst h
      rw [List.nil_append, runPoll_nil]
      simp
  | cons r rs ih =>
      cases hc : pollCycle s r with
      | mk evs o =>
        cases o with
        | done => rw [runPoll_cons_done rs hc] at h; simp at h
        | reschedule s2 w =>
            rw [runPoll_cons_reschedule rs hc] at h
            rw [List.cons_append, runPoll_cons_reschedule (rs ++ l2) hc,
                runPoll_cons_reschedule rs hc, ih s2 h]
            simp [RunResult.mk.injEq, List.append_assoc]
            omega

theorem runPoll_delay_reachable (rs : List Response) (s : PollState)
    (hs : s.delay ∈ reachableDelays) (s' : PollState)
    (h : (runPoll s rs).final = some s') : s'.delay ∈ reachableDelays := by
  induction rs generalizing s with
  | nil =>
      rw [runPoll_nil] at h
      simp only [Option.some.injEq] at h
      subst h; exact hs
  | cons r rs ih =>
      cases hc : pollCycle s r with
      | mk evs o =>
        cases o with
        | done => rw [runPoll_cons_done rs hc] at h; simp at h
        | reschedule s2 w =>
            rw [runPoll_cons_reschedule rs hc] at h
            refine ih s2 ?_ h
            rcases (pollCycle_reschedule_inv hc).1 with hd | hd
            · rw [hd]; exact hs
            · rw [hd]
              simp [reachableDelays] at hs
              rcases hs with h5 | h5 | h5 | h5 <;> rw [h5] <;> decide

theorem Event.isTerminal_eq_false_of_isProgress {e : Event} (h : e.isProgress = true) :
    e.isTerminal = false := by
  cases e <;> simp_all [Event.isProgress, Event.isTerminal, Event.isSuccess, Event.isFailure]

theorem Event.isTerminal_of_isFailure {e : Event} (h : e.isFailure = true) :
    e.isTerminal = true := by
  cases e <;> simp_all [Event.isFailure, Event.isTerminal]

theorem runPoll_events_core (s : PollState) (rs : List Response) :
    (runPoll s rs).events.countP (fun e => e.isTerminal)
        = (if (runPoll s rs).final = none then 1 else 0)
    ∧ ∀ e ∈ (runPoll s rs).events.dropLast, e.isProgress = true := by
  induction rs generalizing s with
  | nil => rw [runPoll_nil]; simp
  | cons r rs ih =>
      cases hc : pollCycle s r with
      | mk evs o =>
        cases o with
        | done =>
            rw [runPoll_cons_done rs hc]
            obtain ⟨pre, t, hevs, hpre, ht⟩ := pollCycle_done_shape hc
            subst hevs
            have h0 : pre.countP (fun e => e.isTerminal) = 0 :=
              List.countP_eq_zero.mpr
                (fun e he => by simp [Event.isTerminal_eq_false_of_isProgress (hpre e he)])
            constructor
            · simp [List.countP_append, h0, ht]
            · intro e he
              rw [show (pre ++ [t]).dropLast = pre by simp] at he
              exact hpre e he
        | reschedule s2 w =>
            rw [runPoll_cons_reschedule rs hc]
            have hprog := pollCycle_reschedule_events hc
            obtain ⟨ih1, ih2⟩ := ih s2
            have h0 : evs.countP (fun e => e.isTerminal) = 0 :=
              List.countP_eq_zero.mpr
                (fun e he => by simp [Event.isTerminal_eq_false_of_isProgress (hprog e he)])
            constructor
            · simpa [List.countP_append, h0] using ih1
            · intro e he
              by_cases hnil : (runPoll s2 rs).events = []
              · rw [hnil, List.append_nil] at he
                exact hprog e ((List.dropLast_sublist evs).subset he)
              · rw [List.dropLast_append_of_ne_nil evs hnil] at he
                rcases List.mem_append.mp he with h1 | h2
                · exact hprog e h1
                · exact ih2 e h2

/-- **C2.** For every sequence of responses (and any starting locals), the
controller reports a failure at most once; terminal events (success or
failure) happen exactly when the run stops of its own accord (so every
failure is terminal and progress notifications alone never end the run);
every event other than the last is a progress notification (so nothing is
ever emitted after a terminal event); and once the run has reached a
terminal state, supplying further responses changes nothing — no further
poll cycle is ever executed. -/
theorem claim_C2_failure_terminal_once (s : PollState) (rs : List Response) :
    (runPoll s rs).events.countP (fun e => e.isFailure) ≤ 1
    ∧ (runPoll s rs).events.countP (fun e => e.isTerminal)
        = (if (runPoll s rs).final = none then 1 else 0)
    ∧ (∀ e ∈ (runPoll s rs).events.dropLast, e.isProgress = true)
    ∧ ((runPoll s rs).final = none → ∀ extra, runPoll s (rs ++ extra) = runPoll s rs) := by
  obtain ⟨h1, h2⟩ := runPoll_events_core s rs
  refine ⟨?_, h1, h2, fun hn extra => runPoll_append_of_final_none s rs extra hn⟩
  have hle : (runPoll s rs).events.countP (fun e => e.isFailure)
      ≤ (runPoll s rs).events.countP (fun e => e.isTerminal) :=
    List.countP_mono_left (fun e _ hf => Event.isTerminal_of_isFailure hf)
  rw [h1] at hle
  exact le_trans hle (by split <;> omega)

theorem runPoll_processing_block (pre : List StatusReport) (s : PollState)
    (rest : List Response)
    (hpre : ∀ rep ∈ pre, rep.status ≠ "completed" ∧ rep.status ≠ "error")
    (hb : s.attempts + pre.length < maxAttempts) :
    runPoll s (pre.map (fun rep => Response.result true 200 rep) ++ rest)
      = ⟨pre.map (fun rep => Event.progressMsg (progressText (rep.progress.getD emptyProgress)))
          ++ (runPoll { attempts := s.attempts + pre.length, delay := s.delay } rest).events,
         (runPoll { attempts := s.attempts + pre.length, delay := s.delay } rest).cycles
           + pre.length,
         (runPoll { attempts := s.attempts + pre.length, delay := s.delay } rest).final⟩ := by
  induction pre generalizing s with
  | nil => simp only [List.map_nil, List.nil_append, List.length_nil, Nat.add_zero]
  | cons rep pre ih =>
      have h1 : rep.status ≠ "completed" ∧ rep.status ≠ "error" := hpre rep (by simp)
      have hb1 : s.attempts + 1 < maxAttempts := by
        simp only [List.length_cons] at hb; omega
      rw [List.map_cons, List.cons_append,
          runPoll_cons_reschedule _
            (pollCycle_stillProcessing_of_lt s 200 rep (by decide) h1.1 h1.2 hb1),
          ih { attempts := s.attempts + 1, delay := s.delay }
            (fun r hr => hpre r (by simp [hr]))
            (by show s.attempts + 1 + pre.length < maxAttempts
                simp only [List.length_cons] at hb; omega)]
      have hat : s.attempts + 1 + pre.length = s.attempts + (rep :: pre).length := by
        simp only [List.length_cons]; omega
      rw [hat]
      simp [RunResult.mk.injEq, List.append_assoc]
      omega

/-- **C1.** For every run in which the status tag is non-terminal
(`pending`/`processing`) for the first `k < maxAttempts` cycles and
`completed` on cycle `k + 1`, the controller emits the success callback
exactly once, after exactly `k + 1` poll cycles, never emits a failure, and
schedules no further cycle (any further responses are ignored). -/
theorem claim_C1_success_after_k_plus_one (k : Nat) (hk : k < maxAttempts)
    (pre : List StatusReport) (hlen : pre.length = k)
    (hpre : ∀ rep ∈ pre, rep.status = "pending" ∨ rep.status = "processing")
    (finRep : StatusReport) (hfin : finRep.status = "completed") (rest : List Response) :
    runPoll initState
        (pre.map (fun rep => Response.result true 200 rep)
          ++ (Response.result true 200 finRep :: rest))
      = ⟨pre.map (fun rep => Event.progressMsg (progressText (rep.progress.getD emptyProgress)))
          ++ [Event.success finRep], k + 1, none⟩
    ∧ (runPoll initState
        (pre.map (fun rep => Response.result true 200 rep)
          ++ (Response.result true 200 finRep :: rest))).events.countP
            (fun e => e.isSuccess) = 1
    ∧ (runPoll initState
        (pre.map (fun rep => Response.result true 200 rep)
          ++ (Response.result true 200 finRep :: rest))).events.countP
            (fun e => e.isFailure) = 0 := by
  have hpre' : ∀ rep ∈ pre, rep.status ≠ "completed" ∧ rep.status ≠ "error" := by
    intro rep h
    rcases hpre rep h with h1 | h1 <;> simp [h1]
  have hb : initState.attempts + pre.length < maxAttempts := by
    simp only [initState, hlen]; omega
  have hmain := runPoll_processing_block pre initState
    (Response.result true 200 finRep :: rest) hpre' hb
  have hdone : runPoll { attempts := initState.attempts + pre.length, delay := initState.delay }
      (Response.result true 200 finRep :: rest) = ⟨[Event.success finRep], 1, none⟩ :=
    runPoll_cons_done rest (pollCycle_completed _ 200 finRep (by decide) hfin)
  rw [hdone] at hmain
  rw [hlen] at hmain
  have hres : runPoll initState
      (pre.map (fun rep => Response.result true 200 rep)
        ++ (Response.result true 200 finRep :: rest))
      = ⟨pre.map (fun rep => Event.progressMsg (progressText (rep.progress.getD emptyProgress)))
          ++ [Event.success finRep], k + 1, none⟩ := by
    rw [hmain]
    simp [RunResult.mk.injEq, Nat.add_comm]
  refine ⟨hres, ?_, ?_⟩ <;>
    simp [hres, List.countP_append, List.countP_map, Function.comp,
      Event.isSuccess, Event.isFailure, List.countP_eq_zero]

/-- Concrete instance of C1 with `k = 2`: two non-terminal cycles
(`processing` with counts 3/10, then `pending`), then `completed`. -/
theorem claim_C1_witness :
    runPoll initState
        [Response.result true 200 ⟨"processing", none, some ⟨some 3, some 10⟩⟩,
         Response.result true 200 ⟨"pending", none, none⟩,
         Response.result true 200 ⟨"completed", none, none⟩]
      = ⟨[Event.progressMsg "Processing: 3/10 statements",
          Event.progressMsg "Processing statements...",
          Event.success ⟨"completed", none, none⟩], 3, none⟩ := by
  have h := claim_C1_success_after_k_plus_one 2 (by decide)
      [⟨"processing", none, some ⟨some 3, some 10⟩⟩, ⟨"pending", none, none⟩] rfl
      (by decide) ⟨"completed", none, none⟩ rfl []
  exact h.1

theorem Response.isRateLimited_elim {r : Response} (h : r.isRateLimited = true) :
    ∃ ok data, r = Response.result ok 429 data := by
  cases r with
  | thrown m => simp [Response.isRateLimited] at h
  | result ok status data =>
      simp only [Response.isRateLimited, decide_eq_true_eq] at h
      exact ⟨ok, data, by rw [h]⟩

theorem delaySeq_lower (n : Nat) : 5000 ≤ delaySeq n := by
  induction n with
  | zero => decide
  | succ n ih =>
      simp only [delaySeq, rateLimitStepDelay, rateLimitDelayCap]
      omega

theorem delaySeq_le_cap (n : Nat) : delaySeq n ≤ rateLimitDelayCap := by
  cases n with
  | zero => decide
  | succ n =>
      simp only [delaySeq, rateLimitStepDelay]
      exact min_le_right _ _

theorem delaySeq_eq_iterate (n : Nat) : delaySeq n = rateLimitStepDelay^[n] initialDelay := by
  induction n with
  | zero => rfl
  | succ n ih => rw [Function.iterate_succ_apply', delaySeq, ih]

theorem runPoll_rateLimited_block (rs : List Response) (s : PollState) (rest : List Response)
    (hrl : ∀ r ∈ rs, r.isRateLimited = true)
    (hb : s.attempts + rs.length < maxAttempts) :
    ∃ msgs : List String, msgs.length = rs.length ∧
      runPoll s (rs ++ rest)
        = ⟨msgs.map Event.progressMsg
             ++ (runPoll { attempts := s.attempts + rs.length,
                           delay := rateLimitStepDelay^[rs.length] s.delay } rest).events,
           (runPoll { attempts := s.attempts + rs.length,
                      delay := rateLimitStepDelay^[rs.length] s.delay } rest).cycles + rs.length,
           (runPoll { attempts := s.attempts + rs.length,
                      delay := rateLimitStepDelay^[rs.length] s.delay } rest).final⟩ := by
  induction rs generalizing s with
  | nil =>
      refine ⟨[], rfl, ?_⟩
      simp only [List.map_nil, List.nil_append, List.length_nil, Nat.add_zero,
        Function.iterate_zero, id]
  | cons r rs ih =>
      obtain ⟨ok, data, rfl⟩ := Response.isRateLimited_elim (hrl r (by simp))
      have hb1 : s.attempts + 1 < maxAttempts := by
        simp only [List.length_cons] at hb; omega
      obtain ⟨msgs, hmlen, hrun⟩ := ih { attempts := s.attempts + 1, delay := rateLimitStepDelay s.delay }
        (fun x hx => hrl x (by simp [hx]))
        (by show s.attempts + 1 + rs.length < maxAttempts
            simp only [List.length_cons] at hb; omega)
      refine ⟨("Rate limited, waiting " ++ toString (roundToSeconds (rateLimitStepDelay s.delay))
          ++ "s...") :: msgs, by simp [hmlen], ?_⟩
      rw [List.cons_append,
          runPoll_cons_reschedule _ (pollCycle_rateLimited_of_lt s ok data hb1), hrun]
      have hat : s.attempts + 1 + rs.length = s.attempts + (Response.result ok 429 data :: rs).length := by
        simp only [List.length_cons]; omega
      have hit : rateLimitStepDelay^[rs.length] (rateLimitStepDelay s.delay)
          = rateLimitStepDelay^[(Response.result ok 429 data :: rs).length] s.delay := by
        rw [List.length_cons, Function.iterate_succ_apply]
      rw [hat, hit]
      simp [RunResult.mk.injEq, List.append_assoc]
      omega

/-- **C3.** If every poll cycle returns HTTP 429: the delay follows
`delaySeq` — it starts at 5000 ms (5 time-units of 1000 ms), is multiplied
by 1.5 and capped at 15000 ms after each cycle, strictly increases while
below the cap, reaches the cap after 3 rate-limited cycles and stays there —
each rate-limited cycle still increments `attempts` by one, and a
`Timeout` failure fires after exactly `maxAttempts` cycles. -/
theorem claim_C3_rate_limited_backoff :
    (delaySeq 0 = initialDelay ∧ initialDelay = 5 * 1000 ∧ rateLimitDelayCap = 15 * 1000)
    ∧ (∀ n, delaySeq (n + 1) = min (delaySeq n * 3 / 2) rateLimitDelayCap)
    ∧ (∀ n, delaySeq n < rateLimitDelayCap → delaySeq n < delaySeq (n + 1))
    ∧ (∀ n, delaySeq n ≤ rateLimitDelayCap)
    ∧ (delaySeq 3 = rateLimitDelayCap ∧ ∀ n, 3 ≤ n → delaySeq n = rateLimitDelayCap)
    ∧ (∀ n, n < maxAttempts → ∀ rs : List Response, rs.length = n →
        (∀ r ∈ rs, r.isRateLimited = true) →
        (runPoll initState rs).final = some { attempts := n, delay := delaySeq n }
          ∧ (runPoll initState rs).cycles = n)
    ∧ (∀ (l1 : List Response) (r : Response), l1.length = maxAttempts - 1 →
        (∀ x ∈ l1, x.isRateLimited = true) → r.isRateLimited = true →
        (runPoll initState (l1 ++ [r])).cycles = maxAttempts
          ∧ (runPoll initState (l1 ++ [r])).final = none
          ∧ (runPoll initState (l1 ++ [r])).events.countP (fun e => e.isFailure) = 1
          ∧ (runPoll initState (l1 ++ [r])).events.getLast?
              = some (Event.failure FailureKind.timeout timeoutDetail)) := by
  refine ⟨⟨rfl, rfl, rfl⟩, fun n => rfl, ?_, delaySeq_le_cap, ⟨by decide, ?_⟩, ?_, ?_⟩
  · intro n h
    have := delaySeq_lower n
    simp only [rateLimitDelayCap] at h
    conv_rhs => rw [delaySeq]
    simp only [rateLimitStepDelay, rateLimitDelayCap]
    omega
  · intro n h3
    induction n with
    | zero => omega
    | succ n ih =>
        rcases Nat.lt_or_ge n 3 with hn | hn
        · interval_cases n
          · omega
          · omega
          · decide
        · have := ih (by omega)
          rw [delaySeq]
          simp only [rateLimitStepDelay, this, rateLimitDelayCap]
          omega
  · intro n hn rs hlen hrl
    obtain ⟨msgs, hmlen, hrun⟩ := runPoll_rateLimited_block rs initState [] hrl
      (by simp only [initState, hlen]; omega)
    rw [List.append_nil] at hrun
    rw [hrun]
    simp only [runPoll_nil, RunResult.mk.injEq]
    constructor
    · show some _ = some _
      rw [Option.some.injEq, PollState.mk.injEq]
      exact ⟨by simp [initState, hlen], by rw [hlen, delaySeq_eq_iterate]; rfl⟩
    · simp [hlen]
  · intro l1 r hlen hrl hr
    obtain ⟨ok, data, rfl⟩ := Response.isRateLimited_elim hr
    obtain ⟨msgs, hmlen, hrun⟩ := runPoll_rateLimited_block l1 initState
      [Response.result ok 429 data] hrl (by simp only [initState, hlen]; decide)
    have hfin : runPoll
        ⟨initState.attempts + l1.length, rateLimitStepDelay^[l1.length] initState.delay⟩
        [Response.result ok 429 data]
        = ⟨[Event.progressMsg ("Rate limited, waiting "
              ++ toString (roundToSeconds (rateLimitStepDelay (rateLimitStepDelay^[l1.length] initState.delay)))
              ++ "s..."),
            Event.failure FailureKind.timeout timeoutDetail], 1, none⟩ :=
      runPoll_cons_done []
        (pollCycle_rateLimited_of_ge _ ok data (by simp [initState, hlen, maxAttempts]))
    rw [hfin] at hrun
    rw [hrun]
    refine ⟨by simp [hlen, maxAttempts], rfl, ?_, ?_⟩
    · rw [List.countP_append]
      have h0 : (msgs.map Event.progressMsg).countP (fun e => e.isFailure) = 0 := by
        simp [List.countP_map, Function.comp, Event.isFailure, List.countP_eq_zero]
      rw [h0]
      rfl
    · rw [show msgs.map Event.progressMsg
          ++ [Event.progressMsg ("Rate limited, waiting "
               ++ toString (roundToSeconds (rateLimitStepDelay (rateLimitStepDelay^[l1.length] initState.delay)))
               ++ "s..."),
              Event.failure FailureKind.timeout timeoutDetail]
          = (msgs.map Event.progressMsg
              ++ [Event.progressMsg ("Rate limited, waiting "
                   ++ toString (roundToSeconds (rateLimitStepDelay (rateLimitStepDelay^[l1.length] initState.delay)))
                   ++ "s...")])
            ++ [Event.failure FailureKind.timeout timeoutDetail] by simp]
      exact List.getLast?_concat _

/-- Concrete instance of C3: two rate-limited cycles from the initial state
leave `attempts = 2` and `delay = delaySeq 2`, and the delay still strictly
increases on the next rate-limited cycle (the cap is not yet reached). -/
theorem claim_C3_witness :
    (runPoll initState [Response.result false 429 ⟨"", none, none⟩,
        Response.result false 429 ⟨"", none, none⟩]).final
      = some { attempts := 2, delay := delaySeq 2 }
    ∧ delaySeq 2 < delaySeq 3 := by
  obtain ⟨-, -, hinc, -, -, hrun, -⟩ := claim_C3_rate_limited_backoff
  exact ⟨(hrun 2 (by decide) [Response.result false 429 ⟨"", none, none⟩,
    Response.result false 429 ⟨"", none, none⟩] rfl (by decide)).1, hinc 2 (by decide)⟩

theorem runPoll_thrown_block (msgs : List String) (s : PollState) (rest : List Response)
    (hb : s.attempts + msgs.length < maxAttempts) :
    runPoll s (msgs.map Response.thrown ++ rest)
      = ⟨msgs.map (fun _ => Event.progressMsg "Connection error, retrying...")
          ++ (runPoll { attempts := s.attempts + msgs.length, delay := s.delay } rest).events,
         (runPoll { attempts := s.attempts + msgs.length, delay := s.delay } rest).cycles
           + msgs.length,
         (runPoll { attempts := s.attempts + msgs.length, delay := s.delay } rest).final⟩ := by
  induction msgs generalizing s with
  | nil => simp only [List.map_nil, List.nil_append, List.length_nil, Nat.add_zero]
  | cons m msgs ih =>
      have hb1 : s.attempts + 1 < maxAttempts := by
        simp only [List.length_cons] at hb; omega
      rw [List.map_cons, List.cons_append,
          runPoll_cons_reschedule _ (pollCycle_thrown_of_lt s m hb1),
          ih { attempts := s.attempts + 1, delay := s.delay }
            (by show s.attempts + 1 + msgs.length < maxAttempts
                simp only [List.length_cons] at hb; omega)]
      have hat : s.attempts + 1 + msgs.length = s.attempts + (m :: msgs).length := by
        simp only [List.length_cons]; omega
      rw [hat]
      simp [RunResult.mk.injEq, List.append_assoc]
      omega

/-- **C4.** A transport error (the awaited status request rejects) with
budget remaining emits the progress message `Connection error, retrying...`
and reschedules at the current delay, unchanged — the only way a transport
error becomes terminal is budget exhaustion, where it emits
`onFailure(Timeout, "Polling failed: <detail>")`; consequently, if every
cycle throws, the run performs exactly `maxAttempts` cycles, the first
`maxAttempts - 1` each emitting the connection-error progress message, and
ends with the `Timeout` failure carrying the last error's detail. -/
theorem claim_C4_transport_errors_timeout :
    (∀ (s : PollState) (m : String), s.attempts + 1 < maxAttempts →
        pollCycle s (Response.thrown m)
          = ([Event.progressMsg "Connection error, retrying..."],
             Outcome.reschedule { attempts := s.attempts + 1, delay := s.delay } s.delay))
    ∧ (∀ (s : PollState) (m : String), ¬ s.attempts + 1 < maxAttempts →
        pollCycle s (Response.thrown m)
          = ([Event.failure FailureKind.timeout ("Polling failed: " ++ m)], Outcome.done))
    ∧ (∀ (msgs : List String) (m : String), msgs.length = maxAttempts - 1 →
        runPoll initState ((msgs ++ [m]).map Response.thrown)
          = ⟨msgs.map (fun _ => Event.progressMsg "Connection error, retrying...")
              ++ [Event.failure FailureKind.timeout ("Polling failed: " ++ m)],
             maxAttempts, none⟩) := by
  refine ⟨pollCycle_thrown_of_lt, pollCycle_thrown_of_ge, ?_⟩
  intro msgs m hlen
  rw [List.map_append, List.map_singleton,
      runPoll_thrown_block msgs initState [Response.thrown m]
        (by simp only [initState, hlen]; decide)]
  have hfin : runPoll { attempts := initState.attempts + msgs.length, delay := initState.delay }
      [Response.thrown m]
      = ⟨[Event.failure FailureKind.timeout ("Polling failed: " ++ m)], 1, none⟩ :=
    runPoll_cons_done [] (pollCycle_thrown_of_ge _ m (by simp [initState, hlen, maxAttempts]))
  rw [hfin]
  simp [RunResult.mk.injEq, hlen, maxAttempts]

/-- Concrete instance of C4: 59 thrown cycles then a final thrown cycle
with detail `boom` — 59 connection-error progress messages, then the
`Timeout` failure `Polling failed: boom`, after exactly 60 cycles. -/
theorem claim_C4_witness :
    runPoll initState ((List.replicate 59 "x" ++ ["boom"]).map Response.thrown)
      = ⟨(List.replicate 59 "x").map (fun _ => Event.progressMsg "Connection error, retrying...")
          ++ [Event.failure FailureKind.timeout ("Polling failed: " ++ "boom")],
         maxAttempts, none⟩ :=
  claim_C4_transport_errors_timeout.2.2 (List.replicate 59 "x") "boom" (by simp [maxAttempts])

theorem runPoll_cycles_le_budget (rs : List Response) (s : PollState) :
    (runPoll s rs).cycles ≤ max (maxAttempts - s.attempts) 1 := by
  induction rs generalizing s with
  | nil => rw [runPoll_nil]; exact Nat.zero_le _
  | cons r rs ih =>
      cases hc : pollCycle s r with
      | mk evs o =>
        cases o with
        | done => rw [runPoll_cons_done rs hc]; exact le_max_right _ _
        | reschedule s2 w =>
            rw [runPoll_cons_reschedule rs hc]
            have hinv := pollCycle_reschedule_inv hc
            have hih := ih s2
            rw [hinv.2.2.1] at hih
            have hlt := hinv.2.2.2
            simp only at hih ⊢
            omega

theorem runPoll_cycles_le_length (rs : List Response) (s : PollState) :
    (runPoll s rs).cycles ≤ rs.length := by
  induction rs generalizing s with
  | nil => rw [runPoll_nil]; exact Nat.zero_le _
  | cons r rs ih =>
      cases hc : pollCycle s r with
      | mk evs o =>
        cases o with
        | done => rw [runPoll_cons_done rs hc]; simp
        | reschedule s2 w =>
            rw [runPoll_cons_reschedule rs hc]
            have hih := ih s2
            simp only [List.length_cons]
            omega

theorem runPoll_final_none_of_long (rs : List Response) (s : PollState)
    (h1 : maxAttempts ≤ s.attempts + rs.length) (h2 : 0 < rs.length) :
    (runPoll s rs).final = none := by
  induction rs generalizing s with
  | nil => simp at h2
  | cons r rs ih =>
      cases hc : pollCycle s r with
      | mk evs o =>
        cases o with
        | done => rw [runPoll_cons_done rs hc]
        | reschedule s2 w =>
            rw [runPoll_cons_reschedule rs hc]
            have hinv := pollCycle_reschedule_inv hc
            refine ih s2 ?_ ?_
            · rw [hinv.2.2.1]
              simp only [List.length_cons] at h1
              omega
            · have := hinv.2.2.2
              simp only [List.length_cons] at h1
              omega

/-- **C7.** A started poll sequence terminates: with the reference
constants (`maxAttempts = 60`, initial delay 5000 ms = 5 time-units,
pre-first-poll delay 2000 ms = 2 time-units, rate-limit growth
`d * 3 / 2` capped at 15000 ms = 15 time-units), a `pollProcessingStatus`
run executes at most `maxAttempts` poll cycles (and at most one per
supplied response), and whenever at least `maxAttempts` responses are
supplied the run has reached a terminal state. -/
theorem claim_C7_termination :
    maxAttempts = 60
    ∧ initialDelay = 5 * 1000
    ∧ initialPrePollDelay = 2 * 1000
    ∧ (∀ d, rateLimitStepDelay d = min (d * 3 / 2) rateLimitDelayCap)
    ∧ rateLimitDelayCap = 15 * 1000
    ∧ (∀ rs : List Response, (pollProcessingStatus rs).cycles ≤ maxAttempts)
    ∧ (∀ rs : List Response, (pollProcessingStatus rs).cycles ≤ rs.length)
    ∧ (∀ rs : List Response, maxAttempts ≤ rs.length →
        (pollProcessingStatus rs).final = none) := by
  refine ⟨rfl, rfl, rfl, fun d => rfl, rfl, ?_, ?_, ?_⟩
  · intro rs
    have := runPoll_cycles_le_budget rs initState
    simp only [initState, maxAttempts] at this ⊢
    exact le_trans this (by omega)
  · intro rs
    exact runPoll_cycles_le_length rs initState
  · intro rs h
    refine runPoll_final_none_of_long rs initState ?_ ?_
    · simp only [initState]; omega
    · simp only [maxAttempts] at h; omega

/-- Concrete instance of C7: 60 responses force termination, within 60
cycles. -/
theorem claim_C7_witness :
    (pollProcessingStatus (List.replicate 60 (Response.thrown "x"))).final = none
    ∧ (pollProcessingStatus (List.replicate 60 (Response.thrown "x"))).cycles ≤ maxAttempts := by
  obtain ⟨-, -, -, -, -, hcyc, -, hfin⟩ := claim_C7_termination
  exact ⟨hfin _ (by simp [maxAttempts]), hcyc _⟩

theorem runPoll_attempts_of_final_some (rs : List Response) (s s2 : PollState)
    (h : (runPoll s rs).final = some s2) :
    s2.attempts = s.attempts + rs.length ∧ (runPoll s rs).cycles = rs.length := by
  induction rs generalizing s with
  | nil =>
      rw [runPoll_nil] at h ⊢
      simp only [Option.some.injEq] at h
      subst h
      exact ⟨rfl, rfl⟩
  | cons r rs ih =>
      cases hc : pollCycle s r with
      | mk evs o =>
        cases o with
        | done => rw [runPoll_cons_done rs hc] at h; simp at h
        | reschedule s3 w =>
            rw [runPoll_cons_reschedule rs hc] at h ⊢
            have hinv := pollCycle_reschedule_inv hc
            obtain ⟨ha, hcyc⟩ := ih s3 h
            rw [hinv.2.2.1] at ha
            simp only [List.length_cons]
            exact ⟨by omega, by omega⟩

/-- **C8.** The attempts counter starts at 0; every cycle that reschedules
hands the next cycle `attempts + 1`, whatever branch it took; and a run
that consumes its whole response list without reaching a terminal state has
incremented `attempts` exactly once per response, executing exactly one
cycle per response. -/
theorem claim_C8_attempts_increment :
    initState.attempts = 0
    ∧ (∀ (s : PollState) (r : Response) (evs : List Event) (s2 : PollState) (w : Nat),
        pollCycle s r = (evs, Outcome.reschedule s2 w) → s2.attempts = s.attempts + 1)
    ∧ (∀ (s : PollState) (rs : List Response) (s2 : PollState),
        (runPoll s rs).final = some s2 →
          s2.attempts = s.attempts + rs.length ∧ (runPoll s rs).cycles = rs.length) := by
  exact ⟨rfl, fun s r evs s2 w h => (pollCycle_reschedule_inv h).2.2.1,
         fun s rs s2 h => runPoll_attempts_of_final_some rs s s2 h⟩

/-- Concrete instance of C8: after two non-terminal cycles (one transport
error, one rate-limited) the attempts counter is exactly 2, one increment
per cycle. -/
theorem claim_C8_witness :
    ∃ s2 : PollState,
      (runPoll initState [Response.thrown "a",
          Response.result false 429 ⟨"", none, none⟩]).final = some s2
      ∧ s2.attempts = initState.attempts + 2
      ∧ (runPoll initState [Response.thrown "a",
          Response.result false 429 ⟨"", none, none⟩]).cycles = 2 := by
  refine ⟨{ attempts := 2, delay := 7500 }, by decide, ?_⟩
  have h := claim_C8_attempts_increment.2.2 initState
    [Response.thrown "a", Response.result false 429 ⟨"", none, none⟩]
    { attempts := 2, delay := 7500 } (by decide)
  exact ⟨h.1, h.2⟩

/-- **C5 (counterexample).** Claim C5 states the failure detail is the
report's `error` field whenever that field is present.  On a report whose
`error` field is present but empty, the source's `||` default applies: the
emitted detail is `Processing failed`, not the empty string the claim
dictates (`specErrDetail` is the claim's rule as written). -/
theorem claim_C5_counterexample :
    (runPoll initState [Response.result true 200 ⟨"error", some "", none⟩]).events
      = [Event.failure FailureKind.processingFailure "Processing failed"]
    ∧ errDetail (some "") = "Processing failed"
    ∧ specErrDetail (some "") = ""
    ∧ errDetail (some "") ≠ specErrDetail (some "") := by
  exact ⟨by decide, rfl, rfl, by decide⟩

/-- **C5 (amended).** If a poll cycle returns a successful response whose
status tag is `error`, the controller emits `onFailure(Processing, d)`
exactly once, immediately on that cycle, where `d` is the report's `error`
field if present and non-empty and `"Processing failed"` otherwise (absent
or empty — JavaScript `||`); no further poll cycle is scheduled and any
further responses are ignored. -/
theorem claim_C5_error_terminal (s : PollState) (rep : StatusReport)
    (hst : rep.status = "error") :
    runPoll s [Response.result true 200 rep]
      = ⟨[Event.failure FailureKind.processingFailure (errDetail rep.error)], 1, none⟩
    ∧ (∀ d, rep.error = some d → d ≠ "" → errDetail rep.error = d)
    ∧ (rep.error = none → errDetail rep.error = "Processing failed")
    ∧ (rep.error = some "" → errDetail rep.error = "Processing failed")
    ∧ (∀ rest, runPoll s (Response.result true 200 rep :: rest)
        = runPoll s [Response.result true 200 rep]) := by
  have hcne : rep.status ≠ "completed" := by rw [hst]; decide
  have hcyc := pollCycle_errorTag s 200 rep (by decide) hcne hst
  refine ⟨runPoll_cons_done [] hcyc, ?_, ?_, ?_, ?_⟩
  · intro d hd hne
    rw [hd]
    simp [errDetail, hne]
  · intro hd; rw [hd]; rfl
  · intro hd; rw [hd]; rfl
  · intro rest
    rw [runPoll_cons_done rest hcyc, runPoll_cons_done [] hcyc]

/-- Concrete instance of the amended C5, matching the spec's example: a
first-cycle `error` report with `error: "bad input"` yields
`onFailure(Processing, "bad input")` immediately, with no reschedule. -/
theorem claim_C5_witness :
    runPoll initState [Response.result true 200 ⟨"error", some "bad input", none⟩]
      = ⟨[Event.failure FailureKind.processingFailure "bad input"], 1, none⟩ := by
  have h := claim_C5_error_terminal initState ⟨"error", some "bad input", none⟩ rfl
  exact h.1

/-- **C6 (counterexample).** Claim C6 states that whenever the progress
payload exposes both counts the formatted message is emitted
(`specProgressText` is that rule as written).  On the payload
`{processed_statements: 0, total_statements: 10}` both counts are present,
yet the source's truthiness test (`progress.processed_statements ?`) is
falsy on 0, so the generic message is emitted instead. -/
theorem claim_C6_counterexample :
    progressText ⟨some 0, some 10⟩ = "Processing statements..."
    ∧ specProgressText ⟨some 0, some 10⟩ = "Processing: 0/10 statements"
    ∧ progressText ⟨some 0, some 10⟩ ≠ specProgressText ⟨some 0, some 10⟩
    ∧ (runPoll initState
        [Response.result true 200 ⟨"processing", none, some ⟨some 0, some 10⟩⟩]).events
      = [Event.progressMsg "Processing statements..."] := by
  exact ⟨rfl, rfl, by decide, by decide⟩

/-- **C6 (amended).** For a non-terminal status report: if the progress
payload's processed count is present and non-zero (JavaScript truthiness),
the emitted message is exactly
`Processing: <processed>/<total> statements` — the total rendered as
`undefined` when absent — and otherwise (processed count absent or zero)
the generic `Processing statements...` is emitted; in particular
`{processed_statements: 3, total_statements: 10}` yields exactly
`Processing: 3/10 statements`. -/
theorem claim_C6_progress_text :
    (∀ (p : Nat) (t : Option Nat), p ≠ 0 →
        progressText ⟨some p, t⟩
          = "Processing: " ++ toString p ++ "/" ++ jsNumToString t ++ " statements")
    ∧ (∀ t, progressText ⟨some 0, t⟩ = "Processing statements...")
    ∧ (∀ t, progressText ⟨none, t⟩ = "Processing statements...")
    ∧ progressText ⟨some 3, some 10⟩ = "Processing: 3/10 statements"
    ∧ (∀ (s : PollState) (rep : StatusReport),
        rep.status ≠ "completed" → rep.status ≠ "error" → s.attempts + 1 < maxAttempts →
        (runPoll s [Response.result true 200 rep]).events
          = [Event.progressMsg (progressText (rep.progress.getD emptyProgress))]) := by
  refine ⟨?_, fun t => rfl, fun t => rfl, rfl, ?_⟩
  · intro p t hp
    simp [progressText, hp]
  · intro s rep h1 h2 hb
    rw [runPoll_cons_reschedule []
        (pollCycle_stillProcessing_of_lt s 200 rep (by decide) h1 h2 hb)]
    simp [runPoll_nil]

/-- Concrete instance of the amended C6: counts 3/10 yield exactly
`Processing: 3/10 statements`, and a still-processing cycle emits it. -/
theorem claim_C6_witness :
    progressText ⟨some 3, some 10⟩
      = "Processing: " ++ toString 3 ++ "/" ++ jsNumToString (some 10) ++ " statements"
    ∧ (runPoll initState
        [Response.result true 200 ⟨"processing", none, some ⟨some 3, some 10⟩⟩]).events
      = [Event.progressMsg (progressText ⟨some 3, some 10⟩)] := by
  refine ⟨claim_C6_progress_text.1 3 (some 10) (by decide), ?_⟩
  exact claim_C6_progress_text.2.2.2.2 initState ⟨"processing", none, some ⟨some 3, some 10⟩⟩
    (by decide) (by decide) (by decide)

/-- **C10.** A transport-success response that is neither HTTP 429 nor `ok`
(e.g. an HTTP 500) emits the progress message
`Error checking status, retrying...`, leaves the delay unchanged and
reschedules at the current delay while `attempts < maxAttempts`; on budget
exhaustion this branch fails with the generic processing-timeout detail,
which is never the transport-error detail `Polling failed: <detail>`. -/
theorem claim_C10_http_error_branch :
    (∀ (s : PollState) (stc : Nat) (data : StatusReport), stc ≠ 429 →
        s.attempts + 1 < maxAttempts →
        pollCycle s (Response.result false stc data)
          = ([Event.progressMsg "Error checking status, retrying..."],
             Outcome.reschedule { attempts := s.attempts + 1, delay := s.delay } s.delay))
    ∧ (∀ (s : PollState) (stc : Nat) (data : StatusReport), stc ≠ 429 →
        ¬ s.attempts + 1 < maxAttempts →
        pollCycle s (Response.result false stc data)
          = ([Event.progressMsg "Error checking status, retrying...",
              Event.failure FailureKind.timeout timeoutDetail], Outcome.done))
    ∧ timeoutDetail = "Processing timeout - please check status manually"
    ∧ (∀ m : String, timeoutDetail ≠ "Polling failed: " ++ m) := by
  refine ⟨fun s stc data h429 hb => pollCycle_httpError_of_lt s stc data h429 hb,
          fun s stc data h429 hb => pollCycle_httpError_of_ge s stc data h429 hb, rfl, ?_⟩
  intro m h
  have hd : timeoutDetail.data = "Polling failed: ".data ++ m.data := by
    rw [← String.data_append, ← h]
  have h1 : timeoutDetail.data.get? 1 = some 'r' := by decide
  have hpf : "Polling failed: ".data = 'P' :: 'o' :: "lling failed: ".data := by decide
  rw [hd, hpf] at h1
  simp at h1

/-- Concrete instance of C10: an HTTP 500 response from the initial state
emits the checking-error message and reschedules at the unchanged 5000 ms
delay. -/
theorem claim_C10_witness :
    pollCycle initState (Response.result false 500 ⟨"", none, none⟩)
      = ([Event.progressMsg "Error checking status, retrying..."],
         Outcome.reschedule { attempts := 1, delay := initialDelay } initialDelay)
    ∧ timeoutDetail ≠ "Polling failed: " ++ "boom" := by
  exact ⟨claim_C10_http_error_branch.1 initState 500 ⟨"", none, none⟩ (by decide) (by decide),
         claim_C10_http_error_branch.2.2.2 "boom"⟩

/-- Concrete instance of C2: a run ending in a completed report has exactly
one terminal event, and appending further responses changes nothing. -/
theorem claim_C2_witness :
    (runPoll initState
        [Response.result true 200 ⟨"completed", none, none⟩]).events.countP
          (fun e => e.isTerminal) = 1
    ∧ runPoll initState
        ([Response.result true 200 ⟨"completed", none, none⟩] ++ [Response.thrown "y"])
      = runPoll initState [Response.result true 200 ⟨"completed", none, none⟩] := by
  have h := claim_C2_failure_terminal_once initState
    [Response.result true 200 ⟨"completed", none, none⟩]
  refine ⟨?_, h.2.2.2 (by decide) [Response.thrown "y"]⟩
  have h2 := h.2.1
  rw [if_pos (by decide)] at h2
  exact h2

theorem stepJob_done {s : PollState} {r : Response} {evs : List Event}
    (rs : List Response) (h : pollCycle s r = (evs, Outcome.done)) :
    stepJob ⟨some s, r :: rs⟩ = (evs, ⟨none, rs⟩) := by
  simp [stepJob, h]

theorem stepJob_reschedule {s : PollState} {r : Response} {evs : List Event}
    {s2 : PollState} {w : Nat} (rs : List Response)
    (h : pollCycle s r = (evs, Outcome.reschedule s2 w)) :
    stepJob ⟨some s, r :: rs⟩ = (evs, ⟨some s2, rs⟩) := by
  simp [stepJob, h]

theorem runSolo_terminal (n : Nat) (rs : List Response) : runSolo n ⟨none, rs⟩ = [] := by
  induction n with
  | zero => rfl
  | succ n ih => simp [runSolo, stepJob, ih]

theorem runSolo_eq_runPoll (rs : List Response) (s : PollState) :
    runSolo rs.length ⟨some s, rs⟩ = (runPoll s rs).events := by
  induction rs generalizing s with
  | nil => rfl
  | cons r rs ih =>
      cases hc : pollCycle s r with
      | mk evs o =>
        cases o with
        | done =>
            rw [List.length_cons, runSolo, stepJob_done rs hc]
            simp [runSolo_terminal, runPoll_cons_done rs hc]
        | reschedule s2 w =>
            rw [List.length_cons, runSolo, stepJob_reschedule rs hc]
            simp [ih s2, runPoll_cons_reschedule rs hc]

theorem filterMap_tag_same (b : Bool) (evs : List Event) :
    (evs.map (fun e => (b, e))).filterMap
        (fun p => if p.1 = b then some p.2 else none) = evs := by
  induction evs with
  | nil => rfl
  | cons e evs ih => simp [List.filterMap_cons, ih]

theorem filterMap_tag_other (b c : Bool) (h : b ≠ c) (evs : List Event) :
    (evs.map (fun e => (b, e))).filterMap
        (fun p => if p.1 = c then some p.2 else none) = [] := by
  induction evs with
  | nil => rfl
  | cons e evs ih => simp [List.filterMap_cons, ih, h]

/-- **C9.** Two interleaved invocations of the polling operation share no
state: under every cooperative schedule, the events attributed to each job
and its ending state are exactly those of that job run alone for its own
number of turns — they depend only on that job's own response sequence,
with no cross-talk in attempts, delay or callbacks; and a solo job run on
its full response list reproduces the single-invocation `runPoll` events. -/
theorem claim_C9_independent_invocations (sched : List Bool) (j1 j2 : Job) :
    jobEvents (runPair sched j1 j2) true = runSolo (sched.count true) j1
    ∧ jobEvents (runPair sched j1 j2) false = runSolo (sched.count false) j2
    ∧ (runPairJobs sched j1 j2).1 = runSoloJob (sched.count true) j1
    ∧ (runPairJobs sched j1 j2).2 = runSoloJob (sched.count false) j2
    ∧ (∀ (s : PollState) (rs : List Response),
        runSolo rs.length ⟨some s, rs⟩ = (runPoll s rs).events) := by
  induction sched generalizing j1 j2 with
  | nil =>
      exact ⟨rfl, rfl, rfl, rfl, fun s rs => runSolo_eq_runPoll rs s⟩
  | cons b sched ih =>
      obtain ⟨ih1, ih2, ih3, ih4, -⟩ := ih (stepJob j1).2 j2
      obtain ⟨ih1f, ih2f, ih3f, ih4f, -⟩ := ih j1 (stepJob j2).2
      cases b with
      | true =>
          refine ⟨?_, ?_, ?_, ?_, fun s rs => runSolo_eq_runPoll rs s⟩
          · rw [runPair, if_pos rfl, jobEvents, List.filterMap_append]
            rw [filterMap_tag_same true (stepJob j1).1]
            rw [List.count_cons_self, runSolo]
            exact congrArg _ ih1
          · rw [runPair, if_pos rfl, jobEvents, List.filterMap_append]
            rw [filterMap_tag_other true false (by decide) (stepJob j1).1]
            rw [List.nil_append, List.count_cons_of_ne (by decide)]
            exact ih2
          · rw [runPairJobs, if_pos rfl, List.count_cons_self, runSoloJob]
            exact ih3
          · rw [runPairJobs, if_pos rfl, List.count_cons_of_ne (by decide)]
            exact ih4
      | false =>
          refine ⟨?_, ?_, ?_, ?_, fun s rs => runSolo_eq_runPoll rs s⟩
          · rw [runPair, if_neg (by decide), jobEvents, List.filterMap_append]
            rw [filterMap_tag_other false true (by decide) (stepJob j2).1]
            rw [List.nil_append, List.count_cons_of_ne (by decide)]
            exact ih1f
          · rw [runPair, if_neg (by decide), jobEvents, List.filterMap_append]
            rw [filterMap_tag_same false (stepJob j2).1]
            rw [List.count_cons_self, runSolo]
            exact congrArg _ ih2f
          · rw [runPairJobs, if_neg (by decide), List.count_cons_of_ne (by decide)]
            exact ih3f
          · rw [runPairJobs, if_neg (by decide), List.count_cons_self, runSoloJob]
            exact ih4f
